import Mathlib

/-!
Shallow embedding of `src/Fetcher/generate_castles_csv.py` (the Castelos
fortification-enrichment pipeline) and proofs about it.

Conventions of the embedding:
* Python strings are Lean `String`s (both are sequences of Unicode code
  points; `len` / `String.length` both count code points).
* A Python value that may be `None` is an `Option`; Python truthiness of
  such a value (`if x:`) is `pyTruthy`.
* `str.lower()` is `pyLower`, modelling Python lowercasing on the ASCII and
  Latin-1 letter ranges (the only ranges occurring in this program's
  vocabulary and data).
* The `in` substring test on strings is `pyIn`.
* Network effects are injected: page/ID lookups and the Wikidata claim
  fetch are function parameters, so each code path of the source is a
  branch on the injected result.
-/

/-- Python truthiness of an optional string: `None` and `""` are falsy. -/
def pyTruthy : Option String → Bool
  | none => false
  | some s => !(s == "")

/-- Python `str.lower()` restricted to ASCII `A`-`Z` and the Latin-1
uppercase letters `À`-`Þ` (except `×`), which cover every character this
program compares case-insensitively. -/
def pyCharLower (c : Char) : Char :=
  if 65 ≤ c.toNat ∧ c.toNat ≤ 90 then Char.ofNat (c.toNat + 32)
  else if 192 ≤ c.toNat ∧ c.toNat ≤ 222 ∧ c.toNat ≠ 215 then Char.ofNat (c.toNat + 32)
  else c

/-- Python `s.lower()` (see `pyCharLower`). -/
def pyLower (s : String) : String := ⟨s.toList.map pyCharLower⟩

/-- Python `s.replace(old, new)` for a one-character `old` (the only form
the source uses: `'_' -> ' '` and `'(' -> ' ('`). -/
def replaceChar (old : Char) (new : List Char) (cs : List Char) : List Char :=
  cs.foldr (fun ch acc => (if ch = old then new else [ch]) ++ acc) []

/-- Python `s.replace(old, new)` for one-character `old`, on strings. -/
def pyReplace (s : String) (old : Char) (new : String) : String :=
  ⟨replaceChar old new.toList s.toList⟩

/-- Worker for `pySplit`: split at each non-overlapping occurrence of the
(nonempty) separator, leftmost first; `acc` holds the reversed current
field. The fuel starts at the list length and cannot run out, since every
step consumes at least one character. -/
def pySplitGo (sep : List Char) : Nat → List Char → List Char → List (List Char)
  | _, [], acc => [acc.reverse]
  | 0, l, acc => [acc.reverse ++ l]
  | fuel + 1, c :: rest, acc =>
    if sep.isPrefixOf (c :: rest) then
      acc.reverse :: pySplitGo sep fuel (rest.drop (sep.length - 1)) []
    else pySplitGo sep fuel rest (c :: acc)

/-- Python `s.split(sep)` for a nonempty separator (the source splits on
`"/wiki/"`). -/
def pySplit (s sep : String) : List String :=
  if sep = "" then [s]
  else (pySplitGo sep.toList s.toList.length s.toList []).map fun cs => ⟨cs⟩

/-- Contiguous-sublist test on lists (the empty needle always matches). -/
def listContainsSub (needle : List Char) : List Char → Bool
  | [] => needle.isEmpty
  | a :: rest => needle.isPrefixOf (a :: rest) || listContainsSub needle rest

/-- Python's `needle in haystack` substring test. -/
def pyIn (needle haystack : String) : Bool :=
  listContainsSub needle.toList haystack.toList

/-- The characters matched by `\s` in the source's regexes (Python `re`
whitespace, ASCII part). -/
def isPySpace (c : Char) : Bool :=
  c = ' ' ∨ c = '\t' ∨ c = '\n' ∨ c = '\r' ∨ c = '\x0b' ∨ c = '\x0c'

/-- `fort_types` from `extract_proper_name_from_url` (lines 38-42 of the
source): the fortification types the name heuristic preserves. -/
def fort_types : List String :=
  ["castelo", "forte", "fortaleza", "muralha", "muralhas", "torre",
   "cidadela", "fortificação", "bateria", "baluarte", "atalaia",
   "reduto", "praça-forte"]

/-- `fortification_keywords` from `is_fortification` (lines 126-129 of the
source): the filter classifier's keyword list. -/
def fortification_keywords : List String :=
  ["castelo", "forte", "fortaleza", "muralha", "torre", "cidadela",
   "fortificação", "bateria", "baluarte", "atalaia", "reduto"]

/-- `is_fortification(name, url)` (source lines 124-141): keyword match on
the lowercased name, else on the lowercased URL. -/
def is_fortification (name url : String) : Bool :=
  if fortification_keywords.any (fun keyword => pyIn keyword (pyLower name)) then
    true
  else if fortification_keywords.any (fun keyword => pyIn keyword (pyLower url)) then
    true
  else
    false

/-- One step of `re.sub(r'\s+\(', ' (', s)`: `pending` holds (reversed) a
run of whitespace not yet emitted; a run followed by `(` collapses to a
single space. -/
def collapseWsGo : List Char → List Char → List Char
  | pending, [] => pending.reverse
  | pending, c :: rest =>
    if isPySpace c then collapseWsGo (c :: pending) rest
    else if c = '(' then
      (if pending.isEmpty then ['('] else [' ', '(']) ++ collapseWsGo [] rest
    else
      pending.reverse ++ c :: collapseWsGo [] rest

/-- `re.sub(r'\s+\(', ' (', s)` (source line 28). -/
def re_sub_ws_paren (s : String) : String := ⟨collapseWsGo [] s.toList⟩

/-- Does `rest` (the characters after a candidate `(`) match `[^)]*\)$`:
nonempty, ends in `)`, with no other `)`. Used for the trailing
parenthetical regex. -/
def parenTailMatch (rest : List Char) : Bool :=
  match rest.reverse with
  | ')' :: mid => mid.all (fun c => c ≠ ')')
  | _ => false

/-- Scan for the leftmost `(` whose suffix matches `[^)]*\)$`; `some kept`
returns the (forward-order) characters before that `(`. -/
def stripParenAux : List Char → Option (List Char)
  | [] => none
  | c :: rest =>
    if c = '(' ∧ parenTailMatch rest then some []
    else
      match stripParenAux rest with
      | some kept => some (c :: kept)
      | none => none

/-- `re.sub(r'\s*\([^)]*\)$', '', s)` (source line 31): strip one trailing
parenthetical segment and the whitespace run before it. -/
def re_sub_trailing_paren (s : String) : String :=
  match stripParenAux s.toList with
  | some kept => ⟨(kept.reverse.dropWhile isPySpace).reverse⟩
  | none => s

/-- The cleaned name computed inside `extract_proper_name_from_url`
(source lines 21-31) from the (percent-decoded) URL: take the part after
the last `/wiki/`, replace `_` by spaces, put exactly one space before
each `(`, and strip a trailing parenthetical. The source's
`urllib.parse.unquote` percent-decoding happens before any of this; the
embedding takes the URL already in decoded form (decoding is the identity
on every percent-free URL). -/
def clean_name_of_url (url : String) : String :=
  let wiki_part := (pySplit url "/wiki/").getLastD ""
  let clean_name := pyReplace wiki_part '_' " "
  let clean_name := pyReplace clean_name '(' " ("
  let clean_name := re_sub_ws_paren clean_name
  re_sub_trailing_paren clean_name

/-- `extract_proper_name_from_url(url, current_name)` (source lines
14-61). The `try`/`except` of the source cannot fire on the embedded pure
steps, so the fallback branch does not appear. -/
def extract_proper_name_from_url (url current_name : String) : String :=
  let clean_name := clean_name_of_url url
  let current_lower := pyLower current_name
  let clean_lower := pyLower clean_name
  let should_use_url_name :=
    fort_types.any (fun fort_type =>
      pyIn fort_type clean_lower && !pyIn fort_type current_lower)
  let should_use_url_name :=
    should_use_url_name ||
      (pyIn current_lower clean_lower && decide (clean_name.length > current_name.length))
  if should_use_url_name then clean_name else current_name

/-- Outcome of the Wikidata `wbgetclaims` call made by
`get_coordinates_from_wikidata`: `failure` models an exception raised by
the request or the JSON access chain (caught by the source's `except`);
`ok none` models a parsed response without a `claims`/`P625` entry;
`ok (some (la, lo))` models a response whose first `P625` claim carries
latitude and longitude whose `str(...)` forms are `la` and `lo`. -/
inductive WbResult where
  | failure : WbResult
  | ok : Option (String × String) → WbResult
deriving DecidableEq, Repr

/-- `get_coordinates_from_wikidata(wikidata_id)` (source lines 88-116),
with the network call injected as `fetch`. The second component counts
the requests issued (0 or 1), so that "no request issued" is provable. -/
def get_coordinates_from_wikidata (fetch : String → WbResult)
    (wikidata_id : Option String) : (Option String × Option String) × Nat :=
  if !pyTruthy wikidata_id then ((none, none), 0)
  else
    match fetch (wikidata_id.getD "") with
    | WbResult.ok (some (la, lo)) => ((some la, some lo), 1)
    | WbResult.ok none => ((none, none), 1)
    | WbResult.failure => ((none, none), 1)

/-- The fixed map-service base of the source's f-string (line 121). -/
def google_maps_base : String := "https://www.google.com/maps"

/-- `create_google_maps_link(lat, lon)` (source lines 118-122). `lat` and
`lon` are the values of `get_coordinates_from_wikidata`: `None` or a
decimal string; `if lat and lon` is Python truthiness. -/
def create_google_maps_link (lat lon : Option String) : String :=
  if pyTruthy lat && pyTruthy lon then
    google_maps_base ++ "?q=" ++ lat.getD "" ++ "," ++ lon.getD ""
  else ""

/-- One CSV data row, as written by `writer.writerow([proper_name, lat,
lon, google_maps_link, wiki_url])` (source line 165): field 0 is the name
and field 4 (`row[4]` in `remove_duplicates`) is the Wikipedia URL. -/
structure Row where
  name : String
  latitude : String
  longitude : String
  google_maps_link : String
  wiki_url : String
deriving DecidableEq, Repr

/-- `process_fortification(name, wiki_url, writer)` (source lines
143-173). The two page lookups are injected: `getId` is
`get_wikidata_id_from_wikipedia` (returns `None` or the extracted id) and
`fetch` feeds `get_coordinates_from_wikidata`. The shared CSV writer is a
row list; the lock makes the append atomic, so its effect is the returned
list. The `time.sleep` and prints have no data effect. -/
def process_fortification (getId : String → Option String)
    (fetch : String → WbResult) (name wiki_url : String)
    (writer : List Row) : List Row :=
  let proper_name := extract_proper_name_from_url wiki_url name
  let wikidata_id := getId wiki_url
  if pyTruthy wikidata_id then
    let latlon := (get_coordinates_from_wikidata fetch wikidata_id).1
    let lat := latlon.1
    let lon := latlon.2
    let google_maps_link := create_google_maps_link lat lon
    if pyTruthy lat && pyTruthy lon then
      writer ++ [⟨proper_name, lat.getD "", lon.getD "", google_maps_link, wiki_url⟩]
    else writer
  else writer

/-- The dispatcher fan-out of `main` (source lines 236-244): every
candidate `(name, wiki_url)` is processed by `process_fortification`
against the shared writer. The thread pool interleaves completions in an
arbitrary order; this embedding fixes one order, which is sound for the
claims proved here (row membership and per-row invariants), none of which
depend on row order. -/
def run_all (getId : String → Option String) (fetch : String → WbResult)
    (candidates : List (String × String)) (writer : List Row) : List Row :=
  candidates.foldl (fun acc c => process_fortification getId fetch c.1 c.2 acc) writer

/-- The row loop of `remove_duplicates` (source lines 184-188): keep a row
only if its URL is not in `seen_urls`, adding kept URLs to the set. The
Python `set` is modelled by a list queried through `contains`. -/
def dedupeLoop (seen_urls : List String) : List Row → List Row
  | [] => []
  | row :: rest =>
    if seen_urls.contains row.wiki_url then dedupeLoop seen_urls rest
    else row :: dedupeLoop (row.wiki_url :: seen_urls) rest

/-- A CSV file as read/written by the source: a header row (list of
fields) followed by data rows. -/
structure CsvFile where
  header : List String
  rows : List Row
deriving DecidableEq, Repr

/-- `remove_duplicates(input_file, output_file)` (source lines 175-193):
skip the header, filter the data rows by first URL occurrence, write the
same header and the kept rows. -/
def remove_duplicates (f : CsvFile) : CsvFile :=
  ⟨f.header, dedupeLoop [] f.rows⟩

/-- `csv.writer` field quoting (QUOTE_MINIMAL, `"` quote char, `,`
delimiter): a field containing a delimiter, quote or line break is
wrapped in quotes with inner quotes doubled. -/
def csvQuoteField (f : String) : String :=
  if f.toList.any (fun c => c = ',' ∨ c = '"' ∨ c = '\n' ∨ c = '\r') then
    "\"" ++ pyReplace f '"' "\"\"" ++ "\""
  else f

/-- Join strings with a separator (`sep.join(...)` semantics). -/
def joinWith (sep : String) : List String → String
  | [] => ""
  | [f] => f
  | f :: rest => f ++ sep ++ joinWith sep rest

/-- The line `csv.writer.writerow(fields)` puts in the file (without the
`\r\n` terminator): quoted fields joined by the `,` delimiter. -/
def csv_writerow (fields : List String) : String :=
  joinWith "," (fields.map csvQuoteField)

/-- The header row written at source line 233 and copied by
`remove_duplicates` (lines 182, 192). -/
def header_fields : List String :=
  ["Castle Name", "Latitude", "Longitude", "Google Maps Link", "Wikipedia Link"]

/-- The intermediate artifact `portuguese_fortifications_temp.csv` built
by `main`: the fixed header plus the rows accumulated by the fan-out. -/
def temp_file (getId : String → Option String) (fetch : String → WbResult)
    (candidates : List (String × String)) : CsvFile :=
  ⟨header_fields, run_all getId fetch candidates []⟩

/-- The final artifact `portuguese_fortifications.csv`: `remove_duplicates`
applied to the intermediate artifact (source line 247). -/
def final_file (getId : String → Option String) (fetch : String → WbResult)
    (candidates : List (String × String)) : CsvFile :=
  remove_duplicates (temp_file getId fetch candidates)

/-- Modelled from the spec's words for the Deduplicator: walking the
input, a row is kept exactly when its reference value has not occurred in
any earlier row; `earlier` accumulates the reference values of all rows
already walked (kept or not). -/
def keepFirstAux (earlier : List String) : List Row → List Row
  | [] => []
  | row :: rest =>
    if earlier.contains row.wiki_url then keepFirstAux (earlier ++ [row.wiki_url]) rest
    else row :: keepFirstAux (earlier ++ [row.wiki_url]) rest

/-- Modelled from the spec's words: the subsequence of `rows` keeping a
row exactly when its reference has not occurred in any earlier row. -/
def keepFirstOccurrences (rows : List Row) : List Row := keepFirstAux [] rows

/-! ## Theorems -/

/-- Case-split form of `get_coordinates_from_wikidata`. -/
theorem get_coordinates_eq (fetch : String → WbResult) (wikidata_id : Option String) :
    get_coordinates_from_wikidata fetch wikidata_id =
      if pyTruthy wikidata_id = true then
        match fetch (wikidata_id.getD "") with
        | WbResult.ok (some (la, lo)) => ((some la, some lo), 1)
        | WbResult.ok none => ((none, none), 1)
        | WbResult.failure => ((none, none), 1)
      else ((none, none), 0) := by
  unfold get_coordinates_from_wikidata
  by_cases h : pyTruthy wikidata_id = true <;> simp [h]

/-- **C6**: CoordinateLookup returns both coordinates or neither, returns
absent with no request when the id is absent, and returns absent on a
missing claim or a request/parse failure. -/
theorem get_coordinates_both_or_neither (fetch : String → WbResult)
    (wikidata_id : Option String) :
    ((get_coordinates_from_wikidata fetch wikidata_id).1.1.isSome =
      (get_coordinates_from_wikidata fetch wikidata_id).1.2.isSome) ∧
    (wikidata_id = none →
      get_coordinates_from_wikidata fetch wikidata_id = ((none, none), 0)) ∧
    (∀ q, wikidata_id = some q → fetch q = WbResult.failure →
      (get_coordinates_from_wikidata fetch wikidata_id).1 = (none, none)) ∧
    (∀ q, wikidata_id = some q → fetch q = WbResult.ok none →
      (get_coordinates_from_wikidata fetch wikidata_id).1 = (none, none)) := by
  refine ⟨?_, ?_, ?_, ?_⟩
  · rw [get_coordinates_eq]
    by_cases h : pyTruthy wikidata_id = true
    · rw [if_pos h]
      rcases fetch (wikidata_id.getD "") with _ | (_ | ⟨la, lo⟩) <;> rfl
    · rw [if_neg h]
  · intro hnone
    subst hnone
    rw [get_coordinates_eq]
    simp [pyTruthy]
  · intro q hq hfq
    subst hq
    rw [get_coordinates_eq]
    by_cases h : pyTruthy (some q) = true
    · rw [if_pos h]
      simp only [Option.getD_some, hfq]
    · rw [if_neg h]
  · intro q hq hfq
    subst hq
    rw [get_coordinates_eq]
    by_cases h : pyTruthy (some q) = true
    · rw [if_pos h]
      simp only [Option.getD_some, hfq]
    · rw [if_neg h]

/-- Witness for `get_coordinates_both_or_neither`: an absent id yields an
absent pair with zero requests issued. -/
theorem get_coordinates_both_or_neither_witness :
    get_coordinates_from_wikidata (fun _ => WbResult.failure) none = ((none, none), 0) :=
  (get_coordinates_both_or_neither (fun _ => WbResult.failure) none).2.1 rfl

/-- **C5**: MapLinkBuilder is pure and total: it maps an absent coordinate
to `""` and a present pair of (nonempty) decimal strings to exactly the
fixed base followed by `?q=`, the latitude, a comma and the longitude; the
result therefore starts with the fixed base and contains `lat,lon`
verbatim. -/
theorem create_google_maps_link_builds_link (la lo : String)
    (hla : la ≠ "") (hlo : lo ≠ "") :
    (∀ lat lon : Option String, lat = none ∨ lon = none →
      create_google_maps_link lat lon = "") ∧
    create_google_maps_link (some la) (some lo) =
      google_maps_base ++ "?q=" ++ la ++ "," ++ lo ∧
    (∃ rest, create_google_maps_link (some la) (some lo) = google_maps_base ++ rest) ∧
    (∃ pre post, create_google_maps_link (some la) (some lo) =
      pre ++ (la ++ "," ++ lo) ++ post) := by
  have h1 : (la == "") = false := beq_eq_false_iff_ne.mpr hla
  have h2 : (lo == "") = false := beq_eq_false_iff_ne.mpr hlo
  have heq : create_google_maps_link (some la) (some lo) =
      google_maps_base ++ "?q=" ++ la ++ "," ++ lo := by
    simp [create_google_maps_link, pyTruthy, h1, h2]
  refine ⟨?_, heq, ⟨"?q=" ++ la ++ "," ++ lo, ?_⟩,
    ⟨google_maps_base ++ "?q=", "", ?_⟩⟩
  · intro lat lon h
    rcases h with h | h <;> subst h <;>
      simp [create_google_maps_link, pyTruthy]
  · rw [heq]; simp [String.append_assoc]
  · rw [heq]; simp [String.append_assoc]

/-- Witness for `create_google_maps_link_builds_link` at the coordinates
`("38.7", "-9.1")`. -/
theorem create_google_maps_link_builds_link_witness :
    (("38.7" : String) ≠ "" ∧ ("-9.1" : String) ≠ "") ∧
    create_google_maps_link (some "38.7") (some "-9.1") =
      google_maps_base ++ "?q=" ++ "38.7" ++ "," ++ "-9.1" :=
  ⟨⟨by decide, by decide⟩,
    (create_google_maps_link_builds_link "38.7" "-9.1" (by decide) (by decide)).2.1⟩

/-- **C10**: an empty-string coordinate component is treated like an
absent coordinate: the builder returns `""`, never a partial link. -/
theorem create_google_maps_link_empty_component (lat lon : Option String)
    (h : lat = some "" ∨ lon = some "") :
    create_google_maps_link lat lon = "" := by
  rcases h with h | h <;> subst h <;>
    simp [create_google_maps_link, pyTruthy]

/-- Witness for `create_google_maps_link_empty_component`: an empty
latitude next to a genuine longitude still produces no link. -/
theorem create_google_maps_link_empty_component_witness :
    ((some "" : Option String) = some "" ∨ (some "38.7" : Option String) = some "") ∧
    create_google_maps_link (some "") (some "38.7") = "" :=
  ⟨Or.inl rfl, create_google_maps_link_empty_component (some "") (some "38.7") (Or.inl rfl)⟩

/-- **C8** counterexample: the claimed vocabulary sizes (eleven and nine)
are not the sizes of the source's constants. -/
theorem keyword_vocabularies_cex :
    ¬ (fort_types.length = 11 ∧ fortification_keywords.length = 9) := by decide

/-- **C8** (amended): `fort_types` has exactly thirteen terms and
`fortification_keywords` exactly eleven; the latter is a proper subset of
the former, and the two lists are distinct constants. -/
theorem keyword_vocabularies :
    fort_types.length = 13 ∧ fortification_keywords.length = 11 ∧
    fortification_keywords.all (fun k => fort_types.contains k) = true ∧
    fort_types.any (fun t => !fortification_keywords.contains t) = true ∧
    fort_types ≠ fortification_keywords := by decide

/-- **C9** counterexample: the intermediate artifact's header line is not
the claimed string with spaces after the commas. -/
theorem artifacts_header_cex :
    csv_writerow (temp_file (fun _ => none) (fun _ => WbResult.failure) []).header ≠
      "Castle Name, Latitude, Longitude, Google Maps Link, Wikipedia Link" := by decide

/-- **C9** (amended): both artifacts begin with the header whose fields
are `Castle Name`, `Latitude`, `Longitude`, `Google Maps Link`,
`Wikipedia Link`, serialized as the line
`Castle Name,Latitude,Longitude,Google Maps Link,Wikipedia Link`
(no space after the delimiter). -/
theorem artifacts_header (getId : String → Option String) (fetch : String → WbResult)
    (candidates : List (String × String)) :
    (temp_file getId fetch candidates).header = header_fields ∧
    (final_file getId fetch candidates).header = header_fields ∧
    csv_writerow header_fields =
      "Castle Name,Latitude,Longitude,Google Maps Link,Wikipedia Link" :=
  ⟨rfl, rfl, by decide⟩

/-- Deduplication is a no-op on its own output, for any starting seen-set. -/
theorem dedupeLoop_idem (rows : List Row) :
    ∀ seen, dedupeLoop seen (dedupeLoop seen rows) = dedupeLoop seen rows := by
  induction rows with
  | nil => intro seen; rfl
  | cons r rest ih =>
    intro seen
    by_cases h : seen.contains r.wiki_url = true
    · simp only [dedupeLoop, if_pos h]
      exact ih seen
    · simp only [dedupeLoop, if_neg h]
      rw [ih (r.wiki_url :: seen)]

/-- `None` is falsy. -/
theorem pyTruthy_none : pyTruthy none = false := rfl

/-- **C4**: NameResolver returns the cleaned name derived from the
reference tail iff (a) the cleaned name contains, case-insensitively, a
fortification-type term that the current name does not contain, or
(b) the current name is a case-insensitive substring of the cleaned name
and the cleaned name is strictly longer; otherwise it returns the current
name unchanged. On the spec's scenario (reference tail
`Forte_de_São_João (Lisboa)`, current name `São João`) the resolved name
is `Forte de São João`. -/
theorem extract_proper_name_decision (url current_name : String) :
    (((∃ t ∈ fort_types, pyIn t (pyLower (clean_name_of_url url)) = true ∧
          pyIn t (pyLower current_name) = false) ∨
        (pyIn (pyLower current_name) (pyLower (clean_name_of_url url)) = true ∧
          current_name.length < (clean_name_of_url url).length)) →
      extract_proper_name_from_url url current_name = clean_name_of_url url) ∧
    (¬ ((∃ t ∈ fort_types, pyIn t (pyLower (clean_name_of_url url)) = true ∧
          pyIn t (pyLower current_name) = false) ∨
        (pyIn (pyLower current_name) (pyLower (clean_name_of_url url)) = true ∧
          current_name.length < (clean_name_of_url url).length)) →
      extract_proper_name_from_url url current_name = current_name) ∧
    extract_proper_name_from_url
        "https://pt.wikipedia.org/wiki/Forte_de_São_João (Lisboa)" "São João" =
      "Forte de São João" := by
  have hiff : (fort_types.any (fun fort_type =>
        pyIn fort_type (pyLower (clean_name_of_url url)) &&
          !pyIn fort_type (pyLower current_name)) ||
      (pyIn (pyLower current_name) (pyLower (clean_name_of_url url)) &&
        decide ((clean_name_of_url url).length > current_name.length))) = true ↔
      ((∃ t ∈ fort_types, pyIn t (pyLower (clean_name_of_url url)) = true ∧
          pyIn t (pyLower current_name) = false) ∨
        (pyIn (pyLower current_name) (pyLower (clean_name_of_url url)) = true ∧
          current_name.length < (clean_name_of_url url).length)) := by
    simp [List.any_eq_true, Bool.and_eq_true, Bool.not_eq_true', gt_iff_lt]
  refine ⟨?_, ?_, by decide⟩
  · intro hcond
    have hb := hiff.mpr hcond
    simp [extract_proper_name_from_url, hb]
  · intro hcond
    have hb : ¬ (fort_types.any (fun fort_type =>
        pyIn fort_type (pyLower (clean_name_of_url url)) &&
          !pyIn fort_type (pyLower current_name)) ||
      (pyIn (pyLower current_name) (pyLower (clean_name_of_url url)) &&
        decide ((clean_name_of_url url).length > current_name.length))) = true :=
      fun hbt => hcond (hiff.mp hbt)
    simp [extract_proper_name_from_url, hb]

/-- Witness for `extract_proper_name_decision` on the spec's scenario:
condition (a) holds (the cleaned name contains a fortification term the
current name lacks), so the cleaned name is returned. -/
theorem extract_proper_name_decision_witness :
    (∃ t ∈ fort_types,
        pyIn t (pyLower (clean_name_of_url
          "https://pt.wikipedia.org/wiki/Forte_de_São_João (Lisboa)")) = true ∧
        pyIn t (pyLower "São João") = false) ∧
    extract_proper_name_from_url
        "https://pt.wikipedia.org/wiki/Forte_de_São_João (Lisboa)" "São João" =
      clean_name_of_url "https://pt.wikipedia.org/wiki/Forte_de_São_João (Lisboa)" := by
  have hc : ∃ t ∈ fort_types,
      pyIn t (pyLower (clean_name_of_url
        "https://pt.wikipedia.org/wiki/Forte_de_São_João (Lisboa)")) = true ∧
      pyIn t (pyLower "São João") = false := by decide
  exact ⟨hc, (extract_proper_name_decision
    "https://pt.wikipedia.org/wiki/Forte_de_São_João (Lisboa)" "São João").1 (Or.inl hc)⟩

/-- Case-split form of `process_fortification`. -/
theorem process_fortification_eq (getId : String → Option String)
    (fetch : String → WbResult) (name wiki_url : String) (writer : List Row) :
    process_fortification getId fetch name wiki_url writer =
      if pyTruthy (getId wiki_url) = true then
        match fetch ((getId wiki_url).getD "") with
        | WbResult.ok (some (la, lo)) =>
          if pyTruthy (some la) && pyTruthy (some lo) then
            writer ++ [⟨extract_proper_name_from_url wiki_url name, la, lo,
              create_google_maps_link (some la) (some lo), wiki_url⟩]
          else writer
        | WbResult.ok none => writer
        | WbResult.failure => writer
      else writer := by
  by_cases h : pyTruthy (getId wiki_url) = true
  · rcases hf : fetch ((getId wiki_url).getD "") with _ | (_ | ⟨la, lo⟩) <;>
      simp [process_fortification, get_coordinates_eq, h, hf, pyTruthy_none]
  · simp [process_fortification, get_coordinates_eq, h]

/-- **C2**: one worker invocation performs exactly zero or one append to
the shared sink, and appends exactly the enriched row iff the external id
lookup yields a present id and the coordinate lookup on that id yields a
present pair. The two hypotheses record data-model facts about the real
lookups: an extracted Wikidata id is a nonempty `Q...` string, and
coordinate values converted with `str(...)` are nonempty. -/
theorem process_fortification_appends_iff (getId : String → Option String)
    (fetch : String → WbResult) (name wiki_url : String) (writer : List Row)
    (hid : getId wiki_url ≠ some "")
    (hcoords : ∀ q la lo, fetch q = WbResult.ok (some (la, lo)) → la ≠ "" ∧ lo ≠ "") :
    (process_fortification getId fetch name wiki_url writer = writer ∨
      ∃ r, process_fortification getId fetch name wiki_url writer = writer ++ [r]) ∧
    (∀ q la lo, getId wiki_url = some q → fetch q = WbResult.ok (some (la, lo)) →
      process_fortification getId fetch name wiki_url writer =
        writer ++ [⟨extract_proper_name_from_url wiki_url name, la, lo,
          create_google_maps_link (some la) (some lo), wiki_url⟩]) ∧
    ((getId wiki_url = none ∨
        ∃ q, getId wiki_url = some q ∧ ∀ la lo, fetch q ≠ WbResult.ok (some (la, lo))) →
      process_fortification getId fetch name wiki_url writer = writer) := by
  rw [process_fortification_eq]
  rcases hgid : getId wiki_url with _ | q
  · refine ⟨Or.inl ?_, ?_, ?_⟩
    · simp [pyTruthy]
    · intro q la lo hq; cases hq
    · intro _; simp [pyTruthy]
  · have hq : q ≠ "" := fun he => hid (he ▸ hgid)
    have hqt : pyTruthy (some q) = true := by
      simp [pyTruthy, hq]
    rw [if_pos hqt, Option.getD_some]
    rcases hf : fetch q with _ | (_ | ⟨la, lo⟩) <;> dsimp only
    · refine ⟨Or.inl rfl, ?_, fun _ => rfl⟩
      intro q' la lo hq' hfq
      cases hq'
      rw [hf] at hfq
      cases hfq
    · refine ⟨Or.inl rfl, ?_, fun _ => rfl⟩
      intro q' la lo hq' hfq
      cases hq'
      rw [hf] at hfq
      cases hfq
    · obtain ⟨hla, hlo⟩ := hcoords q la lo hf
      have hcond : (pyTruthy (some la) && pyTruthy (some lo)) = true := by
        simp [pyTruthy, hla, hlo]
      rw [if_pos hcond]
      refine ⟨Or.inr ⟨_, rfl⟩, ?_, ?_⟩
      · intro q' la' lo' hq' hfq
        cases hq'
        rw [hf] at hfq
        obtain ⟨h1, h2⟩ := Prod.mk.injEq .. ▸ Option.some.inj (WbResult.ok.inj hfq)
        rw [← h1, ← h2]
      · rintro (hnone | ⟨q', hq', hall⟩)
        · cases hnone
        · cases hq'
          exact absurd hf (hall la lo)

/-- Witness for `process_fortification_appends_iff`: a stubbed pipeline in
which both lookups succeed appends exactly the enriched row. -/
theorem process_fortification_appends_iff_witness :
    process_fortification (fun _ => some "Q42")
        (fun _ => WbResult.ok (some ("38.7", "-9.1")))
        "Belém" "https://pt.wikipedia.org/wiki/Torre_de_Belém" [] =
      [] ++ [⟨extract_proper_name_from_url
          "https://pt.wikipedia.org/wiki/Torre_de_Belém" "Belém",
        "38.7", "-9.1", create_google_maps_link (some "38.7") (some "-9.1"),
        "https://pt.wikipedia.org/wiki/Torre_de_Belém"⟩] :=
  (process_fortification_appends_iff (fun _ => some "Q42")
      (fun _ => WbResult.ok (some ("38.7", "-9.1")))
      "Belém" "https://pt.wikipedia.org/wiki/Torre_de_Belém" []
      (by decide)
      (fun q la lo h => by
        obtain ⟨h1, h2⟩ := Prod.mk.injEq .. ▸ Option.some.inj (WbResult.ok.inj h)
        exact ⟨h1 ▸ (by decide), h2 ▸ (by decide)⟩)).2.1
    "Q42" "38.7" "-9.1" rfl rfl

/-- Every row a worker invocation leaves in the sink was already there or
has nonempty latitude and longitude (it was written under the
both-coordinates guard). -/
theorem process_fortification_row_coords (getId : String → Option String)
    (fetch : String → WbResult) (name wiki_url : String) (writer : List Row) :
    ∀ r ∈ process_fortification getId fetch name wiki_url writer,
      r ∈ writer ∨ (r.latitude ≠ "" ∧ r.longitude ≠ "") := by
  rw [process_fortification_eq]
  by_cases h : pyTruthy (getId wiki_url) = true
  · rw [if_pos h]
    rcases fetch ((getId wiki_url).getD "") with _ | (_ | ⟨la, lo⟩) <;> dsimp only
    · exact fun r hr => Or.inl hr
    · exact fun r hr => Or.inl hr
    · by_cases hb : (pyTruthy (some la) && pyTruthy (some lo)) = true
      · rw [if_pos hb]
        intro r hr
        rcases List.mem_append.mp hr with hr | hr
        · exact Or.inl hr
        · obtain ⟨h1, h2⟩ := Bool.and_eq_true _ _ |>.mp hb
          have hla : la ≠ "" := by simpa [pyTruthy] using h1
          have hlo : lo ≠ "" := by simpa [pyTruthy] using h2
          rcases List.mem_cons.mp hr with rfl | hr
          · exact Or.inr ⟨hla, hlo⟩
          · exact absurd hr (List.not_mem_nil r)
      · rw [if_neg hb]
        exact fun r hr => Or.inl hr
  · rw [if_neg h]
    exact fun r hr => Or.inl hr

/-- Rows accumulated by the dispatcher fan-out were in the starting sink
or carry nonempty coordinates. -/
theorem run_all_row_coords (getId : String → Option String)
    (fetch : String → WbResult) (candidates : List (String × String)) :
    ∀ writer, ∀ r ∈ run_all getId fetch candidates writer,
      r ∈ writer ∨ (r.latitude ≠ "" ∧ r.longitude ≠ "") := by
  induction candidates with
  | nil => exact fun writer r hr => Or.inl hr
  | cons c cs ih =>
    intro writer r hr
    have step := ih (process_fortification getId fetch c.1 c.2 writer) r hr
    rcases step with hs | hs
    · exact process_fortification_row_coords getId fetch c.1 c.2 writer r hs
    · exact Or.inr hs

/-- The seen-set loop agrees with the spec's earlier-rows description
whenever the seen set holds exactly the references of the earlier rows. -/
theorem dedupeLoop_eq_keepFirstAux (rows : List Row) :
    ∀ seen earlier, (∀ x : String, x ∈ seen ↔ x ∈ earlier) →
      dedupeLoop seen rows = keepFirstAux earlier rows := by
  induction rows with
  | nil => intros; rfl
  | cons r rest ih =>
    intro seen earlier hinv
    by_cases h : r.wiki_url ∈ seen
    · have h1 : seen.contains r.wiki_url = true := by simpa using h
      have h2 : earlier.contains r.wiki_url = true := by simpa using (hinv _).mp h
      simp only [dedupeLoop, keepFirstAux, if_pos h1, if_pos h2]
      refine ih seen (earlier ++ [r.wiki_url]) (fun x => ?_)
      simp only [List.mem_append, List.mem_cons, List.not_mem_nil, or_false]
      constructor
      · intro hx; exact Or.inl ((hinv x).mp hx)
      · rintro (hx | rfl)
        · exact (hinv x).mpr hx
        · exact h
    · have h1 : ¬ seen.contains r.wiki_url = true := by simpa using h
      have h2 : ¬ earlier.contains r.wiki_url = true := by
        simpa using (fun hx => h ((hinv _).mpr hx))
      simp only [dedupeLoop, keepFirstAux, if_neg h1, if_neg h2]
      refine congrArg (r :: ·) (ih _ _ (fun x => ?_))
      simp only [List.mem_cons, List.mem_append, List.not_mem_nil, or_false]
      constructor
      · rintro (rfl | hx)
        · exact Or.inr rfl
        · exact Or.inl ((hinv x).mp hx)
      · rintro (hx | rfl)
        · exact Or.inr ((hinv x).mpr hx)
        · exact Or.inl rfl

/-- The kept rows form a sublist of the input (relative order preserved). -/
theorem dedupeLoop_sublist (rows : List Row) :
    ∀ seen, (dedupeLoop seen rows).Sublist rows := by
  induction rows with
  | nil => intro seen; exact List.Sublist.refl []
  | cons r rest ih =>
    intro seen
    by_cases h : seen.contains r.wiki_url = true
    · simp only [dedupeLoop, if_pos h]
      exact (ih seen).cons r
    · simp only [dedupeLoop, if_neg h]
      exact (ih _).cons₂ r

/-- The kept rows have pairwise-distinct references, none of them in the
starting seen set. -/
theorem dedupeLoop_nodup (rows : List Row) :
    ∀ seen, ((dedupeLoop seen rows).map Row.wiki_url).Nodup ∧
      ∀ r ∈ dedupeLoop seen rows, r.wiki_url ∉ seen := by
  induction rows with
  | nil => intro seen; exact ⟨List.nodup_nil, fun r hr => absurd hr (List.not_mem_nil r)⟩
  | cons r rest ih =>
    intro seen
    by_cases h : seen.contains r.wiki_url = true
    · simpa only [dedupeLoop, if_pos h] using ih seen
    · have hmem : r.wiki_url ∉ seen := by simpa using h
      simp only [dedupeLoop, if_neg h, List.map_cons, List.nodup_cons]
      refine ⟨⟨?_, (ih (r.wiki_url :: seen)).1⟩, ?_⟩
      · intro hx
        obtain ⟨x, hx1, hx2⟩ := List.mem_map.mp hx
        refine (ih (r.wiki_url :: seen)).2 x hx1 ?_
        rw [hx2]
        exact List.mem_cons_self _ _
      · intro x hx
        rcases List.mem_cons.mp hx with rfl | hx'
        · exact hmem
        · intro hxs
          exact (ih (r.wiki_url :: seen)).2 x hx' (List.mem_cons_of_mem _ hxs)

/-- **C3**: every row of the final dataset has a nonempty latitude and a
nonempty longitude: rows are only ever written under the guard that both
coordinate components are truthy, and deduplication only discards rows. -/
theorem final_rows_have_coordinates (getId : String → Option String)
    (fetch : String → WbResult) (candidates : List (String × String)) (r : Row)
    (hr : r ∈ (final_file getId fetch candidates).rows) :
    r.latitude ≠ "" ∧ r.longitude ≠ "" := by
  have htemp : r ∈ run_all getId fetch candidates [] :=
    (dedupeLoop_sublist (run_all getId fetch candidates []) []).subset hr
  rcases run_all_row_coords getId fetch candidates [] r htemp with hs | hs
  · exact absurd hs (List.not_mem_nil r)
  · exact hs

/-- Witness for `final_rows_have_coordinates`: the single row of a
stubbed one-candidate run has nonempty coordinates. -/
theorem final_rows_have_coordinates_witness :
    (⟨extract_proper_name_from_url
        "https://pt.wikipedia.org/wiki/Torre_de_Belém" "Belém",
      "38.7", "-9.1", create_google_maps_link (some "38.7") (some "-9.1"),
      "https://pt.wikipedia.org/wiki/Torre_de_Belém"⟩ : Row) ∈
      (final_file (fun _ => some "Q42")
        (fun _ => WbResult.ok (some ("38.7", "-9.1")))
        [("Belém", "https://pt.wikipedia.org/wiki/Torre_de_Belém")]).rows ∧
    (⟨extract_proper_name_from_url
        "https://pt.wikipedia.org/wiki/Torre_de_Belém" "Belém",
      "38.7", "-9.1", create_google_maps_link (some "38.7") (some "-9.1"),
      "https://pt.wikipedia.org/wiki/Torre_de_Belém"⟩ : Row).latitude ≠ "" :=
  ⟨by decide,
   (final_rows_have_coordinates (fun _ => some "Q42")
      (fun _ => WbResult.ok (some ("38.7", "-9.1")))
      [("Belém", "https://pt.wikipedia.org/wiki/Torre_de_Belém")] _ (by decide)).1⟩

/-- **C1**: the Deduplicator keeps a row exactly when its reference has
not occurred in any earlier row (first occurrence by input order wins),
preserves the relative order of kept rows (the output is a sublist of the
input), leaves the output references pairwise distinct, and on input
references `[A, B, A, C]` returns the rows for `[A, B, C]`, discarding
the second `A` row. -/
theorem remove_duplicates_keeps_first_occurrence (f : CsvFile) :
    (remove_duplicates f).rows = keepFirstOccurrences f.rows ∧
    ((remove_duplicates f).rows.map Row.wiki_url).Nodup ∧
    (remove_duplicates f).rows.Sublist f.rows ∧
    (remove_duplicates ⟨header_fields,
        [⟨"Castelo Um", "1", "2", "m", "A"⟩, ⟨"Forte Dois", "3", "4", "m", "B"⟩,
         ⟨"Castelo Um bis", "5", "6", "m", "A"⟩, ⟨"Torre Tres", "7", "8", "m", "C"⟩]⟩).rows =
      [⟨"Castelo Um", "1", "2", "m", "A"⟩, ⟨"Forte Dois", "3", "4", "m", "B"⟩,
       ⟨"Torre Tres", "7", "8", "m", "C"⟩] :=
  ⟨dedupeLoop_eq_keepFirstAux f.rows [] [] (fun x => Iff.rfl),
   (dedupeLoop_nodup f.rows []).1,
   dedupeLoop_sublist f.rows [],
   by decide⟩

/-- **C7**: running the Deduplicator a second time on its own output
returns that output unchanged. -/
theorem remove_duplicates_idempotent (f : CsvFile) :
    remove_duplicates (remove_duplicates f) = remove_duplicates f := by
  show CsvFile.mk f.header (dedupeLoop [] (dedupeLoop [] f.rows)) =
    CsvFile.mk f.header (dedupeLoop [] f.rows)
  rw [dedupeLoop_idem f.rows]
